import Mathlib

/-!
Verification model of the File-Manager server (`src/server.js`).

The server is a thin Express application over an Azure blob container.
We embed the pure content of its request handlers:

* the multer upload pipeline (`fileFilter`, the 10 MiB `fileSize` limit,
  memory storage) configured at `server.js` lines 27-44;
* `POST /api/upload` (lines 66-97);
* `GET /api/files` (lines 100-129);
* `GET /api/download/:fileName` (lines 132-165);
* `DELETE /api/files/:fileName` (lines 168-196);
* the error-handling middleware (lines 199-213).

The blob container is modelled as an association list from blob names to
blobs; the Azure SDK's `exists` / `getProperties` / `download` / `delete` /
`upload` / `listBlobsFlat` primitives become operations on that list.
Backend (network) failures of a handler's SDK calls are modelled by an
`Option String` parameter: `some m` means some SDK call threw an error
with message `m`, sending the handler into its `catch` branch.
-/

namespace FileManager

/-- A stored blob: its byte content, its content type as set at upload time
(`none` models an absent/undefined content type on the backend), and the
backend-assigned last-modified timestamp. -/
structure Blob where
  content : List Nat
  contentType : Option String
  lastModified : Nat
deriving DecidableEq

/-- The blob container, as an association list from blob name to blob.
The head of the list is the most recently written entry. -/
abbrev Store := List (String × Blob)

/-- Azure `exists` / `getProperties` / `download`: look a blob name up in the
container, returning the most recently written blob under that name. -/
def storeGet : Store → String → Option Blob
  | [], _ => none
  | (k, b) :: rest, key => if k = key then some b else storeGet rest key

/-- Azure `delete`: remove a blob name from the container. -/
def storeDelete (s : Store) (key : String) : Store :=
  s.filter (fun e => e.1 != key)

/-- Azure `blockBlobClient.upload`: write a blob under a name, overwriting
any existing blob stored under that name. -/
def storePut (s : Store) (key : String) (b : Blob) : Store :=
  (key, b) :: storeDelete s key

/-! ### Node's `path.extname`

`server.js` line 36 computes `path.extname(file.originalname)`.  Node's
(posix) `extname` looks at the last component of the path (trailing path
separators stripped) and returns the substring from the last `.` to the end
of that component, except that it returns the empty string when the
component has no `.`, when its only `.` is its first character (a dotfile
such as `.txt` has no extension), or when the component is exactly `..`. -/

/-- Split a character list at its last `.`: `splitLastDot l = some (pre, ext)`
iff `l = pre ++ '.' :: ext` with no `.` in `ext`; `none` iff `l` has no `.`. -/
def splitLastDot : List Char → Option (List Char × List Char)
  | [] => none
  | c :: cs =>
    match splitLastDot cs with
    | some (pre, ext) => some (c :: pre, ext)
    | none => if c = '.' then some ([], cs) else none

/-- The last component of a path: strip trailing `/` separators, then keep
the characters after the last remaining `/`. -/
def basenameComp (l : List Char) : List Char :=
  (((l.reverse).dropWhile (fun c => c == '/')).takeWhile (fun c => c != '/')).reverse

/-- Node's `path.extname` (posix), as used at `server.js` line 36. -/
def extname (s : String) : String :=
  match splitLastDot (basenameComp s.data) with
  | none => ""
  | some (pre, ext) =>
    if pre = [] then ""
    else if pre = ['.'] ∧ ext = [] then ""
    else String.mk ('.' :: ext)

/-- JavaScript's `String.prototype.toLowerCase`, modelled by per-character
ASCII case folding (all strings the server compares against are ASCII). -/
def jsToLower (s : String) : String :=
  String.mk (s.data.map Char.toLower)

/-- The allow-list of file extensions, `server.js` line 35. -/
def allowedTypes : List String :=
  [".txt", ".pdf", ".png", ".jpg", ".jpeg", ".gif", ".doc", ".docx", ".xls", ".xlsx"]

/-- Result of multer's `fileFilter` callback: `cb(null, true)` accepts the
file; `cb(new Error(msg), false)` rejects it, carrying a plain `Error`
(not a `multer.MulterError`) whose message is `msg`. -/
inductive FilterResult where
  | accept : FilterResult
  | reject : String → FilterResult
deriving DecidableEq

/-- The `fileFilter` of the multer configuration, `server.js` lines 33-43. -/
def fileFilter (originalname : String) : FilterResult :=
  let fileExt := jsToLower (extname originalname)
  if fileExt ∈ allowedTypes then
    .accept
  else
    .reject ("File type " ++ fileExt ++ " is not allowed. Allowed types: "
      ++ String.intercalate ", " allowedTypes)

/-- Modelled from the claim's words (C1): the extension of a file name read
as "the text after the last `.`" of the name, empty when the name has
no `.` at all. -/
def afterLastDot (s : String) : String :=
  if '.' ∈ s.data then
    String.mk ((s.data.reverse.takeWhile (fun c => c != '.')).reverse)
  else ""

/-- Modelled from the claim's words (C1): the allow-list written without the
leading dots, `{txt, pdf, png, jpg, jpeg, gif, doc, docx, xls, xlsx}`. -/
def specAllowList : List String :=
  ["txt", "pdf", "png", "jpg", "jpeg", "gif", "doc", "docx", "xls", "xlsx"]

/-! ### HTTP responses -/

/-- A JSON value appearing in one of the server's response objects. -/
inductive JVal where
  | jstr : String → JVal
  | jnat : Nat → JVal
  | jbool : Bool → JVal
deriving DecidableEq

/-- An HTTP response with a JSON object body: the status code set by
`res.status` (200 when the handler calls `res.json` without `res.status`)
and the body's fields in source order. -/
structure HttpResponse where
  status : Nat
  fields : List (String × JVal)
deriving DecidableEq

/-! ### The multer upload pipeline (`server.js` lines 27-44)

Multer with `memoryStorage` parses the multipart request.  If the request
carries no `file` field, the handler runs with `req.file` undefined.  When a
file part arrives, multer first consults `fileFilter` (which only sees the
file's metadata, not its size); a filter error aborts the request and is
passed to Express's error middleware as-is.  Only a file accepted by the
filter is buffered, and busboy raises `MulterError('LIMIT_FILE_SIZE')` as
soon as the buffered bytes exceed `limits.fileSize` (10 · 1024 · 1024).
Memory storage sets `req.file.size = req.file.buffer.length`. -/

/-- The multipart file part of an upload request, as exposed by multer's
memory storage: original name, declared MIME type, and buffered content. -/
structure UploadedFile where
  originalname : String
  mimetype : String
  buffer : List Nat
deriving DecidableEq

/-- The `fileSize` limit of the multer configuration, `server.js` line 31. -/
def maxFileSize : Nat := 10 * 1024 * 1024

/-- Outcome of the multer middleware on an upload request. -/
inductive MulterOutcome where
  | ok : UploadedFile → MulterOutcome
  | noFile : MulterOutcome
  | filterError : String → MulterOutcome
  | limitError : MulterOutcome
deriving DecidableEq

/-- The multer middleware: no file part leaves `req.file` undefined; a file
part is vetted by `fileFilter` first (a rejection aborts with the filter's
plain `Error`), then streamed subject to the 10 MiB size limit. -/
def multerProcess (req : Option UploadedFile) : MulterOutcome :=
  match req with
  | none => .noFile
  | some f =>
    match fileFilter f.originalname with
    | .reject msg => .filterError msg
    | .accept =>
      if f.buffer.length > maxFileSize then .limitError else .ok f

/-! ### `POST /api/upload` (`server.js` lines 66-97) -/

/-- JavaScript number-to-string conversion of a non-negative integer
(the decimal digits of `Date.now()` in the template literal at
`server.js` line 72). -/
def natDecimal (n : Nat) : List Char :=
  if _h : n < 10 then [Nat.digitChar n]
  else natDecimal (n / 10) ++ [Nat.digitChar (n % 10)]
decreasing_by exact Nat.div_lt_self (by omega) (by omega)

/-- The storage key of an upload: `` `${Date.now()}-${req.file.originalname}` ``
(`server.js` line 72). -/
def uploadFileName (now : Nat) (originalname : String) : String :=
  String.mk (natDecimal now) ++ "-" ++ originalname

/-- The `POST /api/upload` route, multer middleware included: given the
container state, the current epoch milliseconds, the optional file part and
the backend-failure parameter, produce the HTTP response and the new
container state.  A multer error (filter rejection or size limit) reaches
the error middleware (`server.js` lines 199-213): `LIMIT_FILE_SIZE` gets a
400, every other error — including the filter's plain `Error` — gets a 500.
The handler itself 400s when `req.file` is undefined, otherwise writes the
blob and echoes the metadata; a backend throw lands in its `catch`. -/
def apiUpload (store : Store) (now : Nat) (req : Option UploadedFile)
    (failure : Option String) : HttpResponse × Store :=
  match multerProcess req with
  | .noFile =>
    (⟨400, [("error", .jstr "No file uploaded")]⟩, store)
  | .filterError msg =>
    (⟨500, [("success", .jbool false), ("error", .jstr msg)]⟩, store)
  | .limitError =>
    (⟨400, [("success", .jbool false),
            ("error", .jstr "File too large. Maximum size is 10MB")]⟩, store)
  | .ok f =>
    match failure with
    | some m =>
      (⟨500, [("success", .jbool false),
              ("error", .jstr ("Upload failed: " ++ m))]⟩, store)
    | none =>
      let fileName := uploadFileName now f.originalname
      (⟨200, [("success", .jbool true),
              ("message", .jstr "File uploaded successfully"),
              ("fileName", .jstr fileName),
              ("originalName", .jstr f.originalname),
              ("size", .jnat f.buffer.length),
              ("contentType", .jstr f.mimetype)]⟩,
       storePut store fileName ⟨f.buffer, some f.mimetype, now⟩)

/-! ### `GET /api/files` (`server.js` lines 100-129) -/

/-- JavaScript's `String.prototype.split('-')` on the blob name: a `-`
opens a new leading segment, any other character is prepended to the first
segment of the split of the rest (which is never empty). -/
def splitOnDash : List Char → List (List Char)
  | [] => [[]]
  | c :: cs =>
    let r := splitOnDash cs
    if c = '-' then [] :: r else (c :: r.headD []) :: r.tail

/-- JavaScript's `Array.prototype.join('-')`. -/
def joinDash : List (List Char) → List Char
  | [] => []
  | [s] => s
  | s :: ss => s ++ '-' :: joinDash ss

/-- The original-name recovery of `server.js` line 110:
`blob.name.split('-').slice(1).join('-')`. -/
def recoverOriginal (name : String) : String :=
  String.mk (joinDash ((splitOnDash name.data).drop 1))

/-- One entry of the `files` array of the `GET /api/files` response,
`server.js` lines 108-115. -/
structure FileEntry where
  name : String
  originalName : String
  size : Nat
  contentType : Option String
  lastModified : Nat
  url : String
deriving DecidableEq

/-- Result of `GET /api/files`: the `files` array of the success body, or an
error response from the `catch` branch. -/
inductive ListResult where
  | ok : List FileEntry → ListResult
  | err : HttpResponse → ListResult
deriving DecidableEq

/-- The entry built for one enumerated blob, `server.js` lines 105-115.
The handler issues a per-blob `getProperties` call (line 106) whose result
is bound to `properties`, but every field of the entry is taken from the
enumeration record `blob` itself (`blob.name`, `blob.properties.*`) and
from `blobClient.url`, a pure function of the blob name. -/
def listEntry (baseUrl : String) (store : Store) (e : String × Blob) : FileEntry :=
  let _properties := storeGet store e.1
  ⟨e.1, recoverOriginal e.1, e.2.content.length, e.2.contentType,
    e.2.lastModified, baseUrl ++ "/" ++ e.1⟩

/-- The `GET /api/files` route: enumerate the container (`listBlobsFlat`),
build one entry per blob, or fall into the `catch` branch on a backend
throw.  `baseUrl` is the container URL from which `blobClient.url` is
formed. -/
def apiListFiles (baseUrl : String) (store : Store) (failure : Option String) :
    ListResult :=
  match failure with
  | some m =>
    .err ⟨500, [("success", .jbool false),
                ("error", .jstr ("Failed to list files: " ++ m))]⟩
  | none => .ok (store.map (listEntry baseUrl store))

/-- The entry builder with the unused per-blob `getProperties` fetch removed
(the refinement compared against `listEntry` in claim C10). -/
def listEntryNoFetch (baseUrl : String) (e : String × Blob) : FileEntry :=
  ⟨e.1, recoverOriginal e.1, e.2.content.length, e.2.contentType,
    e.2.lastModified, baseUrl ++ "/" ++ e.1⟩

/-- The `GET /api/files` route with the per-blob `getProperties` fetch
removed. -/
def apiListFilesNoFetch (baseUrl : String) (store : Store)
    (failure : Option String) : ListResult :=
  match failure with
  | some m =>
    .err ⟨500, [("success", .jbool false),
                ("error", .jstr ("Failed to list files: " ++ m))]⟩
  | none => .ok (store.map (listEntryNoFetch baseUrl))

/-! ### `GET /api/download/:fileName` (`server.js` lines 132-165) -/

/-- JavaScript's `a || b` on a possibly-absent string: `b` when `a` is
undefined or falsy (the empty string is falsy). -/
def jsOrDefault (a : Option String) (b : String) : String :=
  match a with
  | none => b
  | some s => if s = "" then b else s

/-- The success payload of a download: the three response headers set at
`server.js` lines 150-152 and the streamed blob bytes. -/
structure DownloadPayload where
  contentDisposition : String
  contentType : String
  contentLength : Nat
  body : List Nat
deriving DecidableEq

/-- Result of `GET /api/download/:fileName`: a binary success response or a
JSON error response. -/
inductive DownloadResult where
  | ok : DownloadPayload → DownloadResult
  | err : HttpResponse → DownloadResult
deriving DecidableEq

/-- The `GET /api/download/:fileName` route: on a backend throw the `catch`
branch answers 500; otherwise the handler checks `exists()` first and
404s when the blob is absent; otherwise it reads the blob's properties,
sets `Content-Disposition: attachment; filename="<key>"`, `Content-Type`
(defaulted to `application/octet-stream`) and `Content-Length`, and streams
the content. -/
def apiDownload (store : Store) (fileName : String) (failure : Option String) :
    DownloadResult :=
  match failure with
  | some m =>
    .err ⟨500, [("success", .jbool false),
                ("error", .jstr ("Download failed: " ++ m))]⟩
  | none =>
    match storeGet store fileName with
    | none =>
      .err ⟨404, [("success", .jbool false), ("error", .jstr "File not found")]⟩
    | some b =>
      .ok ⟨"attachment; filename=\"" ++ fileName ++ "\"",
           jsOrDefault b.contentType "application/octet-stream",
           b.content.length, b.content⟩

/-! ### `DELETE /api/files/:fileName` (`server.js` lines 168-196) -/

/-- The `DELETE /api/files/:fileName` route: on a backend throw the `catch`
branch answers 500 and leaves the container alone; otherwise the handler
checks `exists()` first and 404s when the blob is absent; otherwise it
deletes the blob and answers with the success body. -/
def apiDeleteFile (store : Store) (fileName : String) (failure : Option String) :
    HttpResponse × Store :=
  match failure with
  | some m =>
    (⟨500, [("success", .jbool false),
            ("error", .jstr ("Delete failed: " ++ m))]⟩, store)
  | none =>
    match storeGet store fileName with
    | none =>
      (⟨404, [("success", .jbool false), ("error", .jstr "File not found")]⟩, store)
    | some _ =>
      (⟨200, [("success", .jbool true),
              ("message", .jstr "File deleted successfully")]⟩,
       storeDelete store fileName)

/-! ### Helper lemmas -/

theorem splitLastDot_none : ∀ {l : List Char}, splitLastDot l = none → '.' ∉ l := by
  intro l
  induction l with
  | nil => intro _; simp
  | cons c cs ih =>
    intro h
    simp only [splitLastDot] at h
    cases hrec : splitLastDot cs with
    | some p =>
      obtain ⟨pre, ext⟩ := p
      rw [hrec] at h
      simp at h
    | none =>
      rw [hrec] at h
      by_cases hc : c = '.'
      · simp [hc] at h
      · simp only [List.mem_cons, not_or]
        exact ⟨fun he => hc he.symm, ih hrec⟩

theorem splitLastDot_some : ∀ {l pre ext : List Char},
    splitLastDot l = some (pre, ext) → l = pre ++ '.' :: ext ∧ '.' ∉ ext := by
  intro l
  induction l with
  | nil => intro pre ext h; simp [splitLastDot] at h
  | cons c cs ih =>
    intro pre ext h
    simp only [splitLastDot] at h
    cases hrec : splitLastDot cs with
    | some p =>
      obtain ⟨pre0, ext0⟩ := p
      rw [hrec] at h
      simp only [Option.some.injEq, Prod.mk.injEq] at h
      obtain ⟨hpre, hext⟩ := h
      subst hpre
      subst hext
      obtain ⟨hcs, hne⟩ := ih hrec
      subst hcs
      exact ⟨rfl, hne⟩
    | none =>
      rw [hrec] at h
      by_cases hc : c = '.'
      · subst hc
        simp at h
        obtain ⟨hpre, hext⟩ := h
        subst hpre
        subst hext
        exact ⟨rfl, splitLastDot_none hrec⟩
      · simp [hc] at h

theorem takeWhileList_eq_self {p : Char → Bool} : ∀ {l : List Char},
    (∀ c ∈ l, p c = true) → List.takeWhile p l = l := by
  intro l
  induction l with
  | nil => intro _; rfl
  | cons c cs ih =>
    intro h
    have hc : p c = true := h c (by simp)
    simp [List.takeWhile_cons, hc, ih (fun d hd => h d (by simp [hd]))]

theorem takeWhileList_append_cons {p : Char → Bool} {y : Char} {ys : List Char} :
    ∀ {xs : List Char}, (∀ c ∈ xs, p c = true) → p y = false →
    List.takeWhile p (xs ++ y :: ys) = xs := by
  intro xs
  induction xs with
  | nil => intro _ hy; simp [List.takeWhile_cons, hy]
  | cons c cs ih =>
    intro h hy
    have hc : p c = true := h c (by simp)
    simp [List.cons_append, List.takeWhile_cons, hc,
      ih (fun d hd => h d (by simp [hd])) hy]

theorem dropWhileList_eq_self {p : Char → Bool} {l : List Char}
    (h : ∀ c ∈ l, p c = false) : List.dropWhile p l = l := by
  cases l with
  | nil => rfl
  | cons c cs => simp [List.dropWhile_cons, h c (by simp)]

theorem basenameComp_of_no_slash {l : List Char} (h : '/' ∉ l) :
    basenameComp l = l := by
  unfold basenameComp
  have hrev : ∀ c ∈ l.reverse, c ≠ '/' :=
    fun c hc he => h (he ▸ (List.mem_reverse.mp hc))
  rw [dropWhileList_eq_self (p := fun c => c == '/')
    (fun c hc => by simp [hrev c hc])]
  rw [takeWhileList_eq_self (fun c hc => by simp [hrev c hc])]
  exact List.reverse_reverse l

theorem splitLastDot_of_no_dot : ∀ {l : List Char}, '.' ∉ l → splitLastDot l = none := by
  intro l
  induction l with
  | nil => intro _; rfl
  | cons c cs ih =>
    intro h
    have hc : c ≠ '.' := fun he => h (by simp [he])
    have hcs : '.' ∉ cs := fun hm => h (by simp [hm])
    simp only [splitLastDot, ih hcs]
    simp [hc]

theorem afterLastDot_of_split {l pre ext : List Char}
    (h : splitLastDot l = some (pre, ext)) :
    afterLastDot (String.mk l) = String.mk ext := by
  obtain ⟨hl, hne⟩ := splitLastDot_some h
  subst hl
  have hmem : '.' ∈ pre ++ '.' :: ext := by simp
  unfold afterLastDot
  rw [if_pos hmem]
  have hrev : (pre ++ '.' :: ext).reverse = ext.reverse ++ '.' :: pre.reverse := by
    simp
  rw [hrev, takeWhileList_append_cons (fun c hc => by
      simp only [bne_iff_ne, ne_eq, decide_eq_true_eq]
      exact fun he => hne (he ▸ List.mem_reverse.mp hc))
    (by simp), List.reverse_reverse]

theorem stringMk_inj {a b : List Char} : String.mk a = String.mk b ↔ a = b :=
  ⟨fun h => congrArg String.data h, fun h => congrArg String.mk h⟩

theorem mk_mem_allowed_iff (m : List Char) :
    String.mk ('.' :: m) ∈ allowedTypes ↔ String.mk m ∈ specAllowList := by
  simp only [allowedTypes, specAllowList, List.mem_cons, List.mem_singleton,
    show (".txt" : String) = String.mk ['.', 't', 'x', 't'] from rfl,
    show (".pdf" : String) = String.mk ['.', 'p', 'd', 'f'] from rfl,
    show (".png" : String) = String.mk ['.', 'p', 'n', 'g'] from rfl,
    show (".jpg" : String) = String.mk ['.', 'j', 'p', 'g'] from rfl,
    show (".jpeg" : String) = String.mk ['.', 'j', 'p', 'e', 'g'] from rfl,
    show (".gif" : String) = String.mk ['.', 'g', 'i', 'f'] from rfl,
    show (".doc" : String) = String.mk ['.', 'd', 'o', 'c'] from rfl,
    show (".docx" : String) = String.mk ['.', 'd', 'o', 'c', 'x'] from rfl,
    show (".xls" : String) = String.mk ['.', 'x', 'l', 's'] from rfl,
    show (".xlsx" : String) = String.mk ['.', 'x', 'l', 's', 'x'] from rfl,
    show ("txt" : String) = String.mk ['t', 'x', 't'] from rfl,
    show ("pdf" : String) = String.mk ['p', 'd', 'f'] from rfl,
    show ("png" : String) = String.mk ['p', 'n', 'g'] from rfl,
    show ("jpg" : String) = String.mk ['j', 'p', 'g'] from rfl,
    show ("jpeg" : String) = String.mk ['j', 'p', 'e', 'g'] from rfl,
    show ("gif" : String) = String.mk ['g', 'i', 'f'] from rfl,
    show ("doc" : String) = String.mk ['d', 'o', 'c'] from rfl,
    show ("docx" : String) = String.mk ['d', 'o', 'c', 'x'] from rfl,
    show ("xls" : String) = String.mk ['x', 'l', 's'] from rfl,
    show ("xlsx" : String) = String.mk ['x', 'l', 's', 'x'] from rfl,
    stringMk_inj, List.cons.injEq, List.not_mem_nil, or_false, true_and]

theorem storeGet_storePut_self (s : Store) (key : String) (b : Blob) :
    storeGet (storePut s key b) key = some b := by
  simp [storePut, storeGet]

theorem storeGet_storeDelete_self (s : Store) (key : String) :
    storeGet (storeDelete s key) key = none := by
  induction s with
  | nil => rfl
  | cons e rest ih =>
    obtain ⟨k, b⟩ := e
    by_cases hk : k = key
    · simp [storeDelete, List.filter_cons, hk] at ih ⊢
      exact ih
    · simp only [storeDelete, List.filter_cons] at ih ⊢
      simp only [show (k != key) = true by simp [hk], if_pos rfl]
      simp [storeGet, hk]
      exact ih

theorem splitOnDash_ne_nil : ∀ (l : List Char), splitOnDash l ≠ [] := by
  intro l
  cases l with
  | nil => simp [splitOnDash]
  | cons c cs => by_cases hc : c = '-' <;> simp [splitOnDash, hc]

theorem joinDash_splitOnDash : ∀ (l : List Char), joinDash (splitOnDash l) = l := by
  intro l
  induction l with
  | nil => rfl
  | cons c cs ih =>
    simp only [splitOnDash]
    cases h : splitOnDash cs with
    | nil => exact absurd h (splitOnDash_ne_nil cs)
    | cons s ss =>
      rw [h] at ih
      by_cases hc : c = '-'
      · subst hc
        simp only [if_pos rfl, joinDash]
        simp [ih]
      · rw [if_neg hc]
        simp only [List.headD_cons, List.tail_cons]
        cases ss with
        | nil => simp only [joinDash] at ih ⊢; rw [ih]
        | cons t ts =>
          simp only [joinDash] at ih ⊢
          rw [List.cons_append, ih]

theorem splitOnDash_no_dash : ∀ {l : List Char}, '-' ∉ l → splitOnDash l = [l] := by
  intro l
  induction l with
  | nil => intro _; rfl
  | cons c cs ih =>
    intro h
    have hc : c ≠ '-' := fun he => h (by simp [he])
    have hcs : '-' ∉ cs := fun hm => h (by simp [hm])
    simp [splitOnDash, hc, ih hcs]

theorem splitOnDash_append_dash {rest : List Char} :
    ∀ {ts : List Char}, '-' ∉ ts →
    splitOnDash (ts ++ '-' :: rest) = ts :: splitOnDash rest := by
  intro ts
  induction ts with
  | nil =>
    intro _
    simp [splitOnDash]
  | cons c cs ih =>
    intro h
    have hc : c ≠ '-' := fun he => h (by simp [he])
    have hcs : '-' ∉ cs := fun hm => h (by simp [hm])
    simp [List.cons_append, splitOnDash, hc, ih hcs]

theorem digitChar_ne_dash {d : Nat} (h : d < 10) : Nat.digitChar d ≠ '-' := by
  interval_cases d <;> decide

theorem natDecimal_no_dash (n : Nat) : '-' ∉ natDecimal n := by
  induction n using Nat.strong_induction_on with
  | _ n ih =>
    by_cases hn : n < 10
    · unfold natDecimal
      rw [dif_pos hn]
      simp only [List.mem_singleton]
      exact fun he => digitChar_ne_dash hn he.symm
    · unfold natDecimal
      rw [dif_neg hn]
      intro hmem
      rcases List.mem_append.mp hmem with hl | hr
      · exact ih (n / 10) (Nat.div_lt_self (by omega) (by omega)) hl
      · simp only [List.mem_singleton] at hr
        exact digitChar_ne_dash (Nat.mod_lt n (by omega)) hr.symm

theorem fileFilter_accept_iff (name : String) :
    fileFilter name = FilterResult.accept ↔ jsToLower (extname name) ∈ allowedTypes := by
  unfold fileFilter
  by_cases h : jsToLower (extname name) ∈ allowedTypes <;> simp [h]

theorem extname_of_split {name : String} {pre ext : List Char}
    (hhead : name.data.head? ≠ some '.')
    (hbase : basenameComp name.data = name.data)
    (hsplit : splitLastDot name.data = some (pre, ext)) :
    extname name = String.mk ('.' :: ext) := by
  obtain ⟨hd, _⟩ := splitLastDot_some hsplit
  have hpre : pre ≠ [] := by
    intro he
    subst he
    rw [hd] at hhead
    exact hhead rfl
  have hpredd : ¬(pre = ['.'] ∧ ext = []) := by
    rintro ⟨he, _⟩
    subst he
    rw [hd] at hhead
    exact hhead rfl
  unfold extname
  rw [hbase, hsplit]
  simp only [if_neg hpre, if_neg hpredd]

/-! ## Claims -/

/-- C1 counterexample: the claim reads the extension of a name as the text
after its last `.`, so it would accept the file name `.txt` (extension
`txt`, allow-listed); but `path.extname` treats `.txt` as a dotfile with no
extension, so `fileFilter` rejects it. -/
theorem C1_counterexample :
    jsToLower (afterLastDot ".txt") ∈ specAllowList ∧
    fileFilter ".txt" ≠ FilterResult.accept := by
  decide

/-- C1 (amended): for every candidate file name that does not begin with a
`.` and contains no path separator, `fileFilter` accepts it if and only if
the text after its last `.` (its extension), compared case-insensitively,
is in the allow-list `{txt, pdf, png, jpg, jpeg, gif, doc, docx, xls, xlsx}`
— a name with no `.` is rejected; and every rejection carries the message
naming the rejected extension and the allow-list.  (Names whose basename
starts with the only `.`, such as `.txt`, have no extension for
`path.extname` and are rejected even though the text after their last `.`
is allow-listed.) -/
theorem C1_fileFilter_allowlist (name : String)
    (hhead : name.data.head? ≠ some '.') (hslash : '/' ∉ name.data) :
    (fileFilter name = FilterResult.accept ↔
      jsToLower (afterLastDot name) ∈ specAllowList)
    ∧ ∀ msg, fileFilter name = FilterResult.reject msg →
        msg = "File type " ++ jsToLower (extname name)
          ++ " is not allowed. Allowed types: "
          ++ String.intercalate ", " allowedTypes := by
  have hbase : basenameComp name.data = name.data := basenameComp_of_no_slash hslash
  constructor
  · rw [fileFilter_accept_iff]
    cases hsplit : splitLastDot name.data with
    | none =>
      have hnodot : '.' ∉ name.data := splitLastDot_none hsplit
      have hext : extname name = "" := by
        unfold extname
        rw [hbase, hsplit]
      have hafter : afterLastDot name = "" := by
        unfold afterLastDot
        rw [if_neg hnodot]
      rw [hext, hafter]
      constructor
      · intro h
        exact absurd h (by decide)
      · intro h
        exact absurd h (by decide)
    | some p =>
      obtain ⟨pre, ext⟩ := p
      have hext : extname name = String.mk ('.' :: ext) :=
        extname_of_split hhead hbase hsplit
      have hafter : afterLastDot name = String.mk ext := by
        have := afterLastDot_of_split hsplit
        exact this
      rw [hext, hafter]
      have h1 : jsToLower (String.mk ('.' :: ext))
          = String.mk ('.' :: ext.map Char.toLower) := by
        unfold jsToLower
        simp only [List.map_cons]
        rfl
      have h2 : jsToLower (String.mk ext) = String.mk (ext.map Char.toLower) := rfl
      rw [h1, h2]
      exact mk_mem_allowed_iff (ext.map Char.toLower)
  · intro msg hmsg
    unfold fileFilter at hmsg
    by_cases h : jsToLower (extname name) ∈ allowedTypes
    · simp [h] at hmsg
    · simp only [if_neg h, FilterResult.reject.injEq] at hmsg
      exact hmsg.symm

/-- C1 witness: the amended theorem applied to the concrete name
`Report.PDF`, whose extension `pdf` is allow-listed case-insensitively. -/
theorem C1_fileFilter_allowlist_witness :
    (fileFilter "Report.PDF" = FilterResult.accept ↔
      jsToLower (afterLastDot "Report.PDF") ∈ specAllowList)
    ∧ ∀ msg, fileFilter "Report.PDF" = FilterResult.reject msg →
        msg = "File type " ++ jsToLower (extname "Report.PDF")
          ++ " is not allowed. Allowed types: "
          ++ String.intercalate ", " allowedTypes :=
  C1_fileFilter_allowlist "Report.PDF" (by decide) (by decide)

/-- C2 counterexample: an upload of 10485761 bytes (just over 10 MiB) under
the name `big.exe` is rejected by `fileFilter` before the size limit is ever
consulted, so it gets HTTP 500 with the unsupported-type message — not the
claimed 400 with reason TooLarge; the size-limit rejection is therefore not
independent of the file's extension. -/
theorem C2_counterexample :
    (List.replicate 10485761 0).length > 10 * 1024 * 1024
    ∧ (apiUpload [] 1700000000000
        (some ⟨"big.exe", "application/octet-stream", List.replicate 10485761 0⟩)
        none).1.status = 500
    ∧ (apiUpload [] 1700000000000
        (some ⟨"big.exe", "application/octet-stream", List.replicate 10485761 0⟩)
        none).1.status ≠ 400 := by
  refine ⟨by rw [List.length_replicate]; omega, rfl, by decide⟩

/-- C2 (amended): for every upload whose extension passes the allow-list
filter and whose size exceeds 10 MiB (10 · 1024 · 1024 bytes), the upload is
rejected by the `LIMIT_FILE_SIZE` branch of the error middleware with HTTP
status 400 and the too-large message, and the store is left unchanged — no
blob, not even a partial one, is written.  (An oversized upload with a
disallowed extension is also rejected with nothing written, but by the
filter with HTTP 500, so the 400/TooLarge outcome is not independent of the
extension.) -/
theorem C2_size_limit (store : Store) (now : Nat) (f : UploadedFile)
    (hacc : fileFilter f.originalname = FilterResult.accept)
    (hsize : f.buffer.length > 10 * 1024 * 1024) :
    apiUpload store now (some f) none =
      (⟨400, [("success", .jbool false),
              ("error", .jstr "File too large. Maximum size is 10MB")]⟩, store) := by
  have hgt : f.buffer.length > maxFileSize := hsize
  simp [apiUpload, multerProcess, hacc, hgt]

/-- C2 witness: a 10485761-byte upload named `big.txt` (allow-listed
extension) gets the 400 too-large response and the store stays empty. -/
theorem C2_size_limit_witness :
    apiUpload [] 1700000000000
        (some ⟨"big.txt", "text/plain", List.replicate 10485761 0⟩) none =
      (⟨400, [("success", .jbool false),
              ("error", .jstr "File too large. Maximum size is 10MB")]⟩, []) :=
  C2_size_limit [] 1700000000000 ⟨"big.txt", "text/plain", List.replicate 10485761 0⟩
    (by decide)
    (by show (List.replicate 10485761 (0 : Nat)).length > 10 * 1024 * 1024
        rw [List.length_replicate]
        omega)

/-- C7 counterexample: uploading `malware.exe` is rejected — nothing is
written — but with HTTP status 500, not the claimed 400: the `fileFilter`
rejection is a plain `Error`, not a `MulterError`, so the error middleware
falls through to its 500 branch. -/
theorem C7_counterexample :
    (apiUpload [] 1700000000000
        (some ⟨"malware.exe", "application/x-msdownload", [0]⟩) none).1.status = 500
    ∧ (apiUpload [] 1700000000000
        (some ⟨"malware.exe", "application/x-msdownload", [0]⟩) none).1.status ≠ 400
    ∧ (apiUpload [] 1700000000000
        (some ⟨"malware.exe", "application/x-msdownload", [0]⟩) none).2 = [] := by
  refine ⟨rfl, by decide, rfl⟩

/-- C7 (amended): for every upload whose extension is rejected by the
allow-list filter (for example a file named `malware.exe`), the server
responds with HTTP status 500 — the filter's plain `Error` is not a
`MulterError`, so the error middleware's 400 branch does not apply — the
body carries the filter's message, and no registry entry is created: the
store is unchanged. -/
theorem C7_unsupported_type (store : Store) (now : Nat) (f : UploadedFile)
    (msg : String) (hrej : fileFilter f.originalname = FilterResult.reject msg) :
    apiUpload store now (some f) none =
      (⟨500, [("success", .jbool false), ("error", .jstr msg)]⟩, store) := by
  simp [apiUpload, multerProcess, hrej]

/-- C7 witness: the amended theorem at the concrete upload `malware.exe`. -/
theorem C7_unsupported_type_witness :
    apiUpload [] 1700000000000
        (some ⟨"malware.exe", "application/x-msdownload", [0]⟩) none =
      (⟨500, [("success", .jbool false),
              ("error", .jstr ("File type .exe is not allowed. Allowed types: "
                ++ ".txt, .pdf, .png, .jpg, .jpeg, .gif, .doc, .docx, .xls, .xlsx"))]⟩,
       []) :=
  C7_unsupported_type [] 1700000000000 ⟨"malware.exe", "application/x-msdownload", [0]⟩
    ("File type .exe is not allowed. Allowed types: "
      ++ ".txt, .pdf, .png, .jpg, .jpeg, .gif, .doc, .docx, .xls, .xlsx")
    (by decide)

/-- C5: a successful upload stores the blob under the key
`currentEpochMillis() + "-" + originalName`, echoes that key back as
`fileName` together with the original name, size and content type, and two
same-millisecond uploads of identically named files produce the same key,
the second write overwriting the first. -/
theorem C5_upload_key (store : Store) (now : Nat) (f : UploadedFile)
    (hacc : fileFilter f.originalname = FilterResult.accept)
    (hsize : f.buffer.length ≤ maxFileSize) :
    apiUpload store now (some f) none =
      (⟨200, [("success", .jbool true),
              ("message", .jstr "File uploaded successfully"),
              ("fileName", .jstr (uploadFileName now f.originalname)),
              ("originalName", .jstr f.originalname),
              ("size", .jnat f.buffer.length),
              ("contentType", .jstr f.mimetype)]⟩,
       storePut store (uploadFileName now f.originalname)
         ⟨f.buffer, some f.mimetype, now⟩)
    ∧ (∀ g : UploadedFile, g.originalname = f.originalname →
        uploadFileName now g.originalname = uploadFileName now f.originalname)
    ∧ (∀ g : UploadedFile, g.originalname = f.originalname →
        fileFilter g.originalname = FilterResult.accept →
        g.buffer.length ≤ maxFileSize →
        storeGet (apiUpload (apiUpload store now (some f) none).2 now
            (some g) none).2 (uploadFileName now f.originalname)
          = some ⟨g.buffer, some g.mimetype, now⟩) := by
  have hns : ¬(f.buffer.length > maxFileSize) := Nat.not_lt.mpr hsize
  refine ⟨?_, ?_, ?_⟩
  · simp [apiUpload, multerProcess, hacc, hns]
  · intro g hg
    rw [hg]
  · intro g hg hgacc hgsize
    have hgns : ¬(g.buffer.length > maxFileSize) := Nat.not_lt.mpr hgsize
    simp [apiUpload, multerProcess, hacc, hns, hgacc, hgns, hg,
      storeGet_storePut_self]

/-- C5 witness: two same-millisecond uploads named `notes.txt`; the first
answers with the constructed key, the second overwrites the stored blob. -/
theorem C5_upload_key_witness :
    apiUpload [] 1700000000000 (some ⟨"notes.txt", "text/plain", [7, 8]⟩) none =
      (⟨200, [("success", .jbool true),
              ("message", .jstr "File uploaded successfully"),
              ("fileName", .jstr (uploadFileName 1700000000000 "notes.txt")),
              ("originalName", .jstr "notes.txt"),
              ("size", .jnat 2),
              ("contentType", .jstr "text/plain")]⟩,
       storePut [] (uploadFileName 1700000000000 "notes.txt")
         ⟨[7, 8], some "text/plain", 1700000000000⟩)
    ∧ storeGet (apiUpload (apiUpload [] 1700000000000
          (some ⟨"notes.txt", "text/plain", [7, 8]⟩) none).2 1700000000000
          (some ⟨"notes.txt", "text/plain", [9]⟩) none).2
        (uploadFileName 1700000000000 "notes.txt")
      = some ⟨[9], some "text/plain", 1700000000000⟩ :=
  ⟨(C5_upload_key [] 1700000000000 ⟨"notes.txt", "text/plain", [7, 8]⟩
      (by decide) (by decide)).1,
   (C5_upload_key [] 1700000000000 ⟨"notes.txt", "text/plain", [7, 8]⟩
      (by decide) (by decide)).2.2 ⟨"notes.txt", "text/plain", [9]⟩ rfl
      (by decide) (by decide)⟩

/-- C3: the download handler checks existence first and answers 404 exactly
when the key is absent; for a present key it returns the most recently
written bytes with the stored content type (defaulted to
`application/octet-stream` when absent) and the stored content length, under
a `Content-Disposition: attachment; filename="<key>"` header; and a
successful upload followed by a download of the returned key yields the
uploaded bytes unchanged. -/
theorem C3_download (store : Store) (key : String) :
    ((∃ r, apiDownload store key none = DownloadResult.err r ∧ r.status = 404)
      ↔ storeGet store key = none)
    ∧ (∀ b, storeGet store key = some b → b.contentType ≠ some "" →
        apiDownload store key none =
          DownloadResult.ok ⟨"attachment; filename=\"" ++ key ++ "\"",
            b.contentType.getD "application/octet-stream",
            b.content.length, b.content⟩)
    ∧ (∀ (now : Nat) (name mime : String) (bytes : List Nat),
        fileFilter name = FilterResult.accept → bytes.length ≤ maxFileSize →
        apiDownload (apiUpload store now (some ⟨name, mime, bytes⟩) none).2
            (uploadFileName now name) none =
          DownloadResult.ok
            ⟨"attachment; filename=\"" ++ uploadFileName now name ++ "\"",
             jsOrDefault (some mime) "application/octet-stream",
             bytes.length, bytes⟩) := by
  refine ⟨?_, ?_, ?_⟩
  · cases hget : storeGet store key with
    | none =>
      simp only [apiDownload, hget]
      exact ⟨fun _ => trivial, fun _ => ⟨_, rfl, rfl⟩⟩
    | some b =>
      simp only [apiDownload, hget]
      constructor
      · rintro ⟨r, hr, _⟩
        cases hr
      · intro h
        cases h
  · intro b hget hne
    simp only [apiDownload, hget, DownloadResult.ok.injEq]
    cases hct : b.contentType with
    | none => simp [jsOrDefault]
    | some s =>
      have hs : s ≠ "" := fun he => hne (by rw [hct, he])
      simp [jsOrDefault, hs]
  · intro now name mime bytes hacc hsize
    have hns : ¬(bytes.length > maxFileSize) := Nat.not_lt.mpr hsize
    have hstore : (apiUpload store now (some ⟨name, mime, bytes⟩) none).2 =
        storePut store (uploadFileName now name) ⟨bytes, some mime, now⟩ := by
      simp [apiUpload, multerProcess, hacc, hns]
    rw [hstore]
    simp only [apiDownload, storeGet_storePut_self]

/-- C3 witness: uploading `report.pdf` with bytes `[1, 2, 3]` and downloading
the returned key yields exactly those bytes with the stored content type and
length and the attachment header. -/
theorem C3_download_witness :
    apiDownload (apiUpload [] 1700000000000
        (some ⟨"report.pdf", "application/pdf", [1, 2, 3]⟩) none).2
        (uploadFileName 1700000000000 "report.pdf") none =
      DownloadResult.ok
        ⟨"attachment; filename=\"" ++ uploadFileName 1700000000000 "report.pdf" ++ "\"",
         jsOrDefault (some "application/pdf") "application/octet-stream",
         [1, 2, 3].length, [1, 2, 3]⟩ :=
  (C3_download [] (uploadFileName 1700000000000 "report.pdf")).2.2
    1700000000000 "report.pdf" "application/pdf" [1, 2, 3] (by decide) (by decide)

/-- C4: deleting an absent key answers 404 and leaves the store unchanged;
deleting a present key answers success and removes it; deleting the same key
twice gives success then 404, and the store after one delete equals the
store after two (the key is absent either way). -/
theorem C4_delete (store : Store) (key : String) :
    (storeGet store key = none →
      apiDeleteFile store key none =
        (⟨404, [("success", .jbool false), ("error", .jstr "File not found")]⟩,
         store))
    ∧ (∀ b, storeGet store key = some b →
        (apiDeleteFile store key none).1 =
          ⟨200, [("success", .jbool true),
                 ("message", .jstr "File deleted successfully")]⟩
        ∧ storeGet (apiDeleteFile store key none).2 key = none)
    ∧ (∀ b, storeGet store key = some b →
        (apiDeleteFile (apiDeleteFile store key none).2 key none).1.status = 404
        ∧ (apiDeleteFile (apiDeleteFile store key none).2 key none).2 =
            (apiDeleteFile store key none).2) := by
  refine ⟨?_, ?_, ?_⟩
  · intro hget
    simp only [apiDeleteFile, hget]
  · intro b hget
    simp only [apiDeleteFile, hget]
    exact ⟨trivial, storeGet_storeDelete_self store key⟩
  · intro b hget
    simp only [apiDeleteFile, hget, storeGet_storeDelete_self store key]
    exact ⟨trivial, trivial⟩

/-- C4 witness: deleting the only stored key succeeds and a second delete of
the same key gets a 404 without changing the store further. -/
theorem C4_delete_witness :
    ((apiDeleteFile [("k", ⟨[1], some "text/plain", 0⟩)] "k" none).1 =
        ⟨200, [("success", .jbool true),
               ("message", .jstr "File deleted successfully")]⟩
      ∧ storeGet (apiDeleteFile [("k", ⟨[1], some "text/plain", 0⟩)] "k" none).2 "k"
          = none)
    ∧ ((apiDeleteFile (apiDeleteFile [("k", ⟨[1], some "text/plain", 0⟩)] "k" none).2
          "k" none).1.status = 404
      ∧ (apiDeleteFile (apiDeleteFile [("k", ⟨[1], some "text/plain", 0⟩)] "k" none).2
          "k" none).2 =
        (apiDeleteFile [("k", ⟨[1], some "text/plain", 0⟩)] "k" none).2) :=
  ⟨(C4_delete [("k", ⟨[1], some "text/plain", 0⟩)] "k").2.1
      ⟨[1], some "text/plain", 0⟩ (by decide),
   (C4_delete [("k", ⟨[1], some "text/plain", 0⟩)] "k").2.2
      ⟨[1], some "text/plain", 0⟩ (by decide)⟩

theorem stringData_append (a b : String) : (a ++ b).data = a.data ++ b.data := rfl

theorem recoverOriginal_uploadFileName (now : Nat) (name : String) :
    recoverOriginal (uploadFileName now name) = name := by
  unfold recoverOriginal uploadFileName
  have hdata : (String.mk (natDecimal now) ++ "-" ++ name).data
      = natDecimal now ++ '-' :: name.data := by
    rw [stringData_append, stringData_append]
    simp
  rw [hdata, splitOnDash_append_dash (natDecimal_no_dash now)]
  rw [List.drop_succ_cons, List.drop_zero, joinDash_splitOnDash]

/-- C6: `list()` recovers each entry's `originalName` from its key by
dropping the first `-`-delimited segment and rejoining the rest with `-`:
the key `1700000000000-invoice.pdf` recovers `invoice.pdf`, a key with no
`-` recovers the empty string, and every entry of a successful listing has
`originalName = recoverOriginal name`. -/
theorem C6_name_recovery :
    recoverOriginal "1700000000000-invoice.pdf" = "invoice.pdf"
    ∧ (∀ key : String, '-' ∉ key.data → recoverOriginal key = "")
    ∧ (∀ (baseUrl : String) (store : Store) (failure : Option String)
        (entries : List FileEntry),
        apiListFiles baseUrl store failure = ListResult.ok entries →
        ∀ e ∈ entries, e.originalName = recoverOriginal e.name) := by
  refine ⟨by decide, ?_, ?_⟩
  · intro key h
    unfold recoverOriginal
    rw [splitOnDash_no_dash h]
    rfl
  · intro baseUrl store failure entries h e he
    cases failure with
    | some m => simp [apiListFiles] at h
    | none =>
      simp only [apiListFiles, ListResult.ok.injEq] at h
      subst h
      obtain ⟨x, _, rfl⟩ := List.mem_map.mp he
      rfl

/-- C6 witness: the no-dash case of the theorem at the concrete key
`nodash`. -/
theorem C6_name_recovery_witness : recoverOriginal "nodash" = "" :=
  C6_name_recovery.2.1 "nodash" (by decide)

/-- C9 counterexample: at the very shape of name the claim calls lossy — a
leading numeric-looking segment followed by `-` — recovery is exact:
stripping the first `-`-delimited segment from the key that `register`
builds for `123-report.pdf` returns `123-report.pdf` unchanged. -/
theorem C9_counterexample :
    recoverOriginal (uploadFileName 1700000000000 "123-report.pdf")
      = "123-report.pdf" :=
  recoverOriginal_uploadFileName 1700000000000 "123-report.pdf"

/-- C9 (amended): recovery is never lossy on keys produced by `register`:
the timestamp prefix contains no `-`, so it is exactly the first
`-`-delimited segment of the key, and dropping it recovers every original
name — including names with a leading numeric-looking segment followed by
`-`.  (The ambiguity the spec flags is only that distinct
timestamp/original-name pairs can produce the same key, not that recovery
from a key misparses.) -/
theorem C9_recovery_not_lossy (now : Nat) (name : String) :
    recoverOriginal (uploadFileName now name) = name :=
  recoverOriginal_uploadFileName now name

/-- C8 counterexample: the no-file branch of `POST /api/upload`
(`server.js` line 69) answers 400 with body `{error: 'No file uploaded'}` —
there is no `success: false` field in that error response. -/
theorem C8_counterexample :
    (apiUpload [] 1700000000000 none none).1.status = 400
    ∧ ("success", JVal.jbool false) ∉ (apiUpload [] 1700000000000 none none).1.fields := by
  decide

/-- C8 (amended): every error response of the API other than the upload
no-file 400 — filter rejections, size-limit rejections and backend failures
of the upload, and every error response of download, delete and list —
carries `success: false` together with an `error` message field.  The
no-file 400 response of `POST /api/upload` is the exception: its body has
only an `error` field. -/
theorem C8_error_shape :
    (∀ (store : Store) (now : Nat) (f : UploadedFile) (failure : Option String),
      (apiUpload store now (some f) failure).1.status ≠ 200 →
      ("success", JVal.jbool false) ∈ (apiUpload store now (some f) failure).1.fields
      ∧ ∃ m, ("error", JVal.jstr m) ∈ (apiUpload store now (some f) failure).1.fields)
    ∧ (∀ (store : Store) (key : String) (failure : Option String) (r : HttpResponse),
        apiDownload store key failure = DownloadResult.err r →
        ("success", JVal.jbool false) ∈ r.fields
        ∧ ∃ m, ("error", JVal.jstr m) ∈ r.fields)
    ∧ (∀ (store : Store) (key : String) (failure : Option String),
        (apiDeleteFile store key failure).1.status ≠ 200 →
        ("success", JVal.jbool false) ∈ (apiDeleteFile store key failure).1.fields
        ∧ ∃ m, ("error", JVal.jstr m) ∈ (apiDeleteFile store key failure).1.fields)
    ∧ (∀ (baseUrl : String) (store : Store) (failure : Option String)
        (r : HttpResponse),
        apiListFiles baseUrl store failure = ListResult.err r →
        ("success", JVal.jbool false) ∈ r.fields
        ∧ ∃ m, ("error", JVal.jstr m) ∈ r.fields) := by
  refine ⟨?_, ?_, ?_, ?_⟩
  · intro store now f failure hst
    cases hful : fileFilter f.originalname with
    | reject msg =>
      simp only [apiUpload, multerProcess, hful]
      exact ⟨by simp, msg, by simp⟩
    | accept =>
      by_cases hlim : f.buffer.length > maxFileSize
      · simp only [apiUpload, multerProcess, hful, if_pos hlim]
        exact ⟨by simp, "File too large. Maximum size is 10MB", by simp⟩
      · cases failure with
        | some m =>
          simp only [apiUpload, multerProcess, hful, if_neg hlim]
          exact ⟨by simp, "Upload failed: " ++ m, by simp⟩
        | none =>
          simp [apiUpload, multerProcess, hful, hlim] at hst
  · intro store key failure r h
    cases failure with
    | some m =>
      simp only [apiDownload] at h
      injection h with h2
      subst h2
      exact ⟨by simp, "Download failed: " ++ m, by simp⟩
    | none =>
      cases hget : storeGet store key with
      | none =>
        simp only [apiDownload, hget] at h
        injection h with h2
        subst h2
        exact ⟨by simp, "File not found", by simp⟩
      | some b =>
        simp only [apiDownload, hget] at h
        cases h
  · intro store key failure hst
    cases failure with
    | some m =>
      simp only [apiDeleteFile]
      exact ⟨by simp, "Delete failed: " ++ m, by simp⟩
    | none =>
      cases hget : storeGet store key with
      | none =>
        simp only [apiDeleteFile, hget]
        exact ⟨by simp, "File not found", by simp⟩
      | some b =>
        simp [apiDeleteFile, hget] at hst
  · intro baseUrl store failure r h
    cases failure with
    | some m =>
      simp only [apiListFiles] at h
      injection h with h2
      subst h2
      exact ⟨by simp, "Failed to list files: " ++ m, by simp⟩
    | none =>
      simp only [apiListFiles] at h
      cases h

/-- C8 witness: the download of an absent key answers with a body carrying
`success: false` and an error message. -/
theorem C8_error_shape_witness :
    ("success", JVal.jbool false) ∈
      (⟨404, [("success", JVal.jbool false), ("error", JVal.jstr "File not found")]⟩ :
        HttpResponse).fields
    ∧ ∃ m, ("error", JVal.jstr m) ∈
      (⟨404, [("success", JVal.jbool false), ("error", JVal.jstr "File not found")]⟩ :
        HttpResponse).fields :=
  C8_error_shape.2.1 [] "missing.txt" none
    ⟨404, [("success", JVal.jbool false), ("error", JVal.jstr "File not found")]⟩ rfl

/-- C10: the listing response is fully determined by the enumeration
records: `GET /api/files` with the per-blob `getProperties` fetch removed
returns the same result for every container state, every listing outcome
and every base URL, and the content types of a successful listing are the
blobs' own stored content types passed through unchanged (an absent content
type stays absent, it is not replaced by a default). -/
theorem C10_list_fetch_unused (baseUrl : String) (store : Store)
    (failure : Option String) :
    apiListFiles baseUrl store failure = apiListFilesNoFetch baseUrl store failure
    ∧ (∀ entries, apiListFiles baseUrl store failure = ListResult.ok entries →
        entries.map FileEntry.contentType = store.map (fun e => e.2.contentType)) := by
  constructor
  · cases failure with
    | some m => rfl
    | none => rfl
  · intro entries h
    cases failure with
    | some m => simp [apiListFiles] at h
    | none =>
      simp only [apiListFiles, ListResult.ok.injEq] at h
      subst h
      simp [listEntry, List.map_map, Function.comp]

/-- C10 witness: a one-entry container whose blob has no stored content
type lists that entry with the content type still absent. -/
theorem C10_list_fetch_unused_witness :
    ([("1700000000000-a.txt", (⟨[1], none, 5⟩ : Blob))].map
        (listEntry "https://acct.example/files"
          [("1700000000000-a.txt", ⟨[1], none, 5⟩)])).map FileEntry.contentType
      = [("1700000000000-a.txt", (⟨[1], none, 5⟩ : Blob))].map
          (fun e => e.2.contentType) :=
  (C10_list_fetch_unused "https://acct.example/files"
      [("1700000000000-a.txt", ⟨[1], none, 5⟩)] none).2
    ([("1700000000000-a.txt", (⟨[1], none, 5⟩ : Blob))].map
      (listEntry "https://acct.example/files"
        [("1700000000000-a.txt", ⟨[1], none, 5⟩)]))
    rfl

end FileManager
